import Mathlib

/-!
Verification of `lasagne/layers/pool.py` (pooling and upscaling layers).

The Python source is shallowly embedded below: shapes become
`List (Option Int)` (a `none` entry is Python's `None`, an unknown
dimension), fallible constructors and functions return `Except PyErr`,
Python's floor division `//` is `Int.fdiv` and `%` is `Int.fmod`,
and tensor contents are modelled as (nested) lists of rationals along
the axes a given operator touches.
-/

namespace LasagnePool

/-- Python exceptions that the embedded code can raise. -/
inductive PyErr where
  | typeError (msg : String)
  | valueError (msg : String)
  | indexError (msg : String)
  | zeroDivisionError
  | assertionError
  deriving Repr, DecidableEq

/-- A Python argument that may be a scalar or a sequence
(`pool_size`, `stride`, `pad`, `scale_factor` accept both). -/
inductive ScalarOrSeq (α : Type) where
  | scalar (x : α)
  | seq (xs : List α)
  deriving Repr, DecidableEq

/-- Modelled from the spec: `as_tuple` from `lasagne.utils` (not under `src/`),
"normalize window/stride/pad scalars-or-sequences into a fixed-length tuple
per spatial axis (a scalar broadcasts to all axes; a sequence must match
axis count exactly or construction fails)". -/
def as_tuple {α : Type} (x : ScalarOrSeq α) (n : Nat) : Except PyErr (List α) :=
  match x with
  | .scalar v => .ok (List.replicate n v)
  | .seq xs =>
    if xs.length = n then .ok xs
    else .error (.valueError "length of input to as_tuple does not match expected length")

/-- The classes of `pool.py` that are referenced by `super(...)` calls,
plus their common base class `Layer`. -/
inductive LayerClass where
  | layer
  | pool1D
  | pool2D
  | pool3D
  deriving Repr, DecidableEq

/-- The (reflexive) Python subclass relation among the modelled classes:
each of the pooling classes inherits directly from `Layer` only. -/
def isSubclassOf (sub : LayerClass) (sup : LayerClass) : Bool :=
  sub = sup || sup = .layer

/-- Python's `super(cls, self)` raises
`TypeError: super(type, obj): obj must be an instance or subtype of type`
unless `self`'s class is a subclass of `cls`. -/
def superCheck (cls selfClass : LayerClass) : Except PyErr Unit :=
  if isSubclassOf selfClass cls then .ok ()
  else .error (.typeError "super(type, obj): obj must be an instance or subtype of type")

/-- Python `repr` of a shape entry (`None` or an integer). -/
def reprDim (d : Option Int) : String :=
  match d with
  | none => "None"
  | some n => toString n

/-- Python `repr` of a shape tuple (commas between entries). -/
def reprShape (s : List (Option Int)) : String :=
  "(" ++ String.intercalate ", " (s.map reprDim) ++ ")"

/-- `pool_output_length` from `pool.py`: output length of a pooling operator
along a single dimension.  `//` is Python floor division (`Int.fdiv`); the
`assert pad == 0` of the `ignore_border == False` branch raises
`AssertionError` when violated, and a zero stride raises
`ZeroDivisionError` exactly where the Python division would. -/
def pool_output_length (input_length pool_size : Option Int) (stride pad : Int)
    (ignore_border : Bool) : Except PyErr (Option Int) :=
  match input_length, pool_size with
  | none, _ => .ok none
  | some _, none => .ok none
  | some l, some w =>
    if ignore_border then
      let output_length := l + 2 * pad - w + 1
      if stride = 0 then .error .zeroDivisionError
      else .ok (some ((output_length + stride - 1).fdiv stride))
    else
      if pad = 0 then
        if stride ≥ w then
          if stride = 0 then .error .zeroDivisionError
          else .ok (some ((l + stride - 1).fdiv stride))
        else
          if stride = 0 then .error .zeroDivisionError
          else .ok (some (max 0 ((l - w + stride - 1).fdiv stride) + 1))
      else .error .assertionError

/-- Construction-time state of a windowed pooling layer (`Pool1DLayer`,
`Pool2DLayer`, `Pool3DLayer` all store the same fields). -/
structure PoolLayerState where
  input_shape : List (Option Int)
  pool_size : List Int
  stride : List Int
  pad : List Int
  ignore_border : Bool
  mode : String
  deriving Repr, DecidableEq

/-- `Pool1DLayer.__init__`: `super(Pool1DLayer, self).__init__` first, then
the rank-3 check, then normalisation of `pool_size`/`stride`/`pad`. -/
def pool1DLayer_init (input_shape : List (Option Int)) (pool_size : ScalarOrSeq Int)
    (stride : Option (ScalarOrSeq Int)) (pad : ScalarOrSeq Int)
    (ignore_border : Bool) (mode : String) : Except PyErr PoolLayerState := do
  superCheck .pool1D .pool1D
  if input_shape.length ≠ 3 then
    throw (.valueError ("Tried to create a 1D pooling layer with input shape "
      ++ reprShape input_shape
      ++ ". Expected 3 input dimensions (batchsize, channels, 1 spatial dimensions)."))
  let ps ← as_tuple pool_size 1
  let st ← match stride with
    | none => pure ps
    | some s => as_tuple s 1
  let pd ← as_tuple pad 1
  pure ⟨input_shape, ps, st, pd, ignore_border, mode⟩

/-- `Pool2DLayer.__init__`: `super(Pool2DLayer, self).__init__`, then
`as_tuple(pool_size, 2)`, then the rank-4 check, then stride and pad. -/
def pool2DLayer_init (input_shape : List (Option Int)) (pool_size : ScalarOrSeq Int)
    (stride : Option (ScalarOrSeq Int)) (pad : ScalarOrSeq Int)
    (ignore_border : Bool) (mode : String) : Except PyErr PoolLayerState := do
  superCheck .pool2D .pool2D
  let ps ← as_tuple pool_size 2
  if input_shape.length ≠ 4 then
    throw (.valueError ("Tried to create a 2D pooling layer with input shape "
      ++ reprShape input_shape
      ++ ". Expected 4 input dimensions (batchsize, channels, 2 spatial dimensions)."))
  let st ← match stride with
    | none => pure ps
    | some s => as_tuple s 2
  let pd ← as_tuple pad 2
  pure ⟨input_shape, ps, st, pd, ignore_border, mode⟩

/-- `Pool3DLayer.__init__` as written in the source: its first statement is
`super(Pool2DLayer, self).__init__(incoming)` — with `Pool2DLayer`, not
`Pool3DLayer` — although `self` is a `Pool3DLayer`, which is not a subclass
of `Pool2DLayer`.  The remaining statements (including the rank check, whose
message reads "2D pooling layer ... Expected 4 input dimensions" while
testing for rank 5) are transcribed faithfully but are unreachable. -/
def pool3DLayer_init (input_shape : List (Option Int)) (pool_size : ScalarOrSeq Int)
    (stride : Option (ScalarOrSeq Int)) (pad : ScalarOrSeq Int)
    (ignore_border : Bool) (mode : String) : Except PyErr PoolLayerState := do
  superCheck .pool2D .pool3D
  let ps ← as_tuple pool_size 3
  if input_shape.length ≠ 5 then
    throw (.valueError ("Tried to create a 2D pooling layer with input shape "
      ++ reprShape input_shape
      ++ ". Expected 4 input dimensions (batchsize, channels, 2 spatial dimensions)."))
  let st ← match stride with
    | none => pure ps
    | some s => as_tuple s 3
  let pd ← as_tuple pad 3
  pure ⟨input_shape, ps, st, pd, ignore_border, mode⟩

/-- Python's `x % y` on integers (floor modulus); `y = 0` raises
`ZeroDivisionError`, `x` being `None` raises `TypeError`. -/
def pyMod (x : Option Int) (y : Int) : Except PyErr Int :=
  match x with
  | none => .error (.typeError "unsupported operand type(s) for %: NoneType and int")
  | some v =>
    if y = 0 then .error .zeroDivisionError
    else .ok (v.fmod y)

/-- Python tuple indexing `t[i]` for a non-negative index. -/
def pyIndex (t : List (Option Int)) (i : Nat) : Except PyErr (Option Int) :=
  match t.get? i with
  | none => .error (.indexError "tuple index out of range")
  | some d => .ok d

/-- Construction-time state of `FeaturePoolLayer` / `FeatureWTALayer`
(the stored reduction function of the former is not needed here). -/
structure FeatureLayerState where
  input_shape : List (Option Int)
  pool_size : Int
  axis : Nat
  deriving Repr, DecidableEq

/-- `FeaturePoolLayer.__init__`: stores `pool_size` and `axis`, then checks
`self.input_shape[self.axis] % self.pool_size != 0` — note that an unknown
(`None`) axis size makes the `%` itself raise a `TypeError`. -/
def featurePoolLayer_init (input_shape : List (Option Int)) (pool_size : Int)
    (axis : Nat) : Except PyErr FeatureLayerState := do
  let num_feature_maps ← pyIndex input_shape axis
  let r ← pyMod num_feature_maps pool_size
  if r ≠ 0 then
    throw (.valueError ("Number of input feature maps ("
      ++ toString ((num_feature_maps).getD 0)
      ++ ") is not a multiple of the pool size (pool_size="
      ++ toString pool_size ++ ")"))
  else
    pure ⟨input_shape, pool_size, axis⟩

/-- `FeatureWTALayer.__init__`: identical validation to `FeaturePoolLayer`,
with "region size" in place of "pool size" in the message. -/
def featureWTALayer_init (input_shape : List (Option Int)) (pool_size : Int)
    (axis : Nat) : Except PyErr FeatureLayerState := do
  let num_feature_maps ← pyIndex input_shape axis
  let r ← pyMod num_feature_maps pool_size
  if r ≠ 0 then
    throw (.valueError ("Number of input feature maps ("
      ++ toString ((num_feature_maps).getD 0)
      ++ ") is not a multiple of the region size (pool_size="
      ++ toString pool_size ++ ")"))
  else
    pure ⟨input_shape, pool_size, axis⟩

/-- Upscaling mode of the `Upscale*DLayer` classes. -/
inductive UpscaleMode where
  | repeat
  | dilate
  deriving Repr, DecidableEq

/-- `theano.tensor.extra_ops.repeat(x, a, axis)` along the modelled axis:
every element is replicated `a` times contiguously. -/
def repeatOp {α : Type} (xs : List α) (a : Nat) : List α :=
  (xs.map (fun x => List.replicate a x)).flatten

/-- `Upscale1DLayer.get_output_for` acting on the spatial axis of the input
(batch and channel axes are untouched).  In dilate mode,
`T.zeros(output_shape)` followed by `T.set_subtensor(upscaled[:, :, ::a],
input)` places `input[t]` at position `a * t` and leaves every other
position at zero; pointwise, position `i` of the result holds
`input[i / a]` when `i % a == 0` and `0` otherwise. -/
def upscale1DLayer_get_output_for (a : Nat) (mode : UpscaleMode)
    (input : List ℚ) : List ℚ :=
  match mode with
  | .repeat => if a > 1 then repeatOp input a else input
  | .dilate =>
    if a > 1 then
      (List.range (input.length * a)).map
        (fun i => if i % a = 0 then input.getD (i / a) 0 else 0)
    else input

/-- `Upscale2DLayer.get_output_for` on the two spatial axes, the outer list
being axis 2 and the inner lists axis 3.  Repeat mode replicates along
axis 3 first, then axis 2, exactly as in the source; dilate mode scatters
into `upscaled[:, :, ::a, ::b]` of a zero tensor of the inferred output
shape (rows `input.length * a`, columns `(input.headD []).length * b`). -/
def upscale2DLayer_get_output_for (a b : Nat) (mode : UpscaleMode)
    (input : List (List ℚ)) : List (List ℚ) :=
  match mode with
  | .repeat =>
    let u1 := if b > 1 then input.map (fun row => repeatOp row b) else input
    if a > 1 then repeatOp u1 a else u1
  | .dilate =>
    if b > 1 ∨ a > 1 then
      (List.range (input.length * a)).map (fun i =>
        (List.range ((input.headD []).length * b)).map (fun j =>
          if i % a = 0 ∧ j % b = 0 then (input.getD (i / a) []).getD (j / b) 0
          else 0))
    else input

/-- `Upscale3DLayer.get_output_for` on the three spatial axes (outermost
list is axis 2, innermost axis 4).  Repeat mode replicates along axis 4,
then 3, then 2; dilate mode scatters into `[:, :, ::a, ::b, ::c]`. -/
def upscale3DLayer_get_output_for (a b c : Nat) (mode : UpscaleMode)
    (input : List (List (List ℚ))) : List (List (List ℚ)) :=
  match mode with
  | .repeat =>
    let u1 := if c > 1 then input.map (fun p => p.map (fun row => repeatOp row c))
              else input
    let u2 := if b > 1 then u1.map (fun p => repeatOp p b) else u1
    if a > 1 then repeatOp u2 a else u2
  | .dilate =>
    if c > 1 ∨ b > 1 ∨ a > 1 then
      (List.range (input.length * a)).map (fun i =>
        (List.range ((input.headD []).length * b)).map (fun j =>
          (List.range (((input.headD []).headD []).length * c)).map (fun k =>
            if i % a = 0 ∧ j % b = 0 ∧ k % c = 0 then
              ((input.getD (i / a) []).getD (j / b) []).getD (k / c) 0
            else 0)))
    else input

/-- Modelled from the spec: `theano.tensor.argmax` (external engine),
"index of the maximum value within each pool-size group ... first maximal
index", i.e. ties are broken toward the lowest index.  On an empty list the
result is irrelevant (the spec only uses it on nonempty groups). -/
def argmaxFirst : List ℚ → Nat
  | [] => 0
  | x :: xs => if (x : WithBot ℚ) < xs.maximum then argmaxFirst xs + 1 else 0

/-- The `pool_size`-sized group `g` of a tensor slice along the pooled axis:
after the `(num_pools, pool_size)` reshape of `FeatureWTALayer`, group `g`
holds the contiguous elements `g * pool_size ..< (g + 1) * pool_size`. -/
def wtaGroup (pool_size : Nat) (xs : List ℚ) (g : Nat) : List ℚ :=
  (xs.drop (g * pool_size)).take pool_size

/-- The broadcast mask `T.eq(max_indices, arange)` of
`FeatureWTALayer.get_output_for`, reshaped back to the input shape: entry
`i` (group `i / pool_size`, within-group offset `i % pool_size`) is `1`
when the offset equals the group's argmax index, else `0`. -/
def wtaMask (pool_size : Nat) (xs : List ℚ) : List ℚ :=
  (List.range xs.length).map
    (fun i => if argmaxFirst (wtaGroup pool_size xs (i / pool_size)) = i % pool_size
              then 1 else 0)

/-- `FeatureWTALayer.get_output_for` on a slice along the pooled axis
(the computation is pointwise in every other axis): `input * mask`. -/
def featureWTALayer_get_output_for (pool_size : Nat) (xs : List ℚ) : List ℚ :=
  List.zipWith (fun x m => x * m) xs (wtaMask pool_size xs)

/-- Modelled from the spec: the number of windows produced by the external
windowed-reduction primitive (`pool_2d` / `pool_3d`) with `ignore_border =
True` and `pad = 0` — "the count of windows that fit entirely inside the
padded input": the windows start at `i * stride` and must satisfy
`i * stride + window ≤ n`. -/
def numFullWindows (n window stride : Nat) : Nat :=
  if window ≤ n then (n - window) / stride + 1 else 0

/-- Modelled from the spec: the external 1D windowed reduction with
`ignore_border = True`, `pad = 0` — window `i` covers the input elements
`i * stride ..< i * stride + window` and is reduced by `f`. -/
def pool1d_compute (window stride : Nat) (f : List ℚ → ℚ) (xs : List ℚ) :
    List ℚ :=
  (List.range (numFullWindows xs.length window stride)).map
    (fun i => f ((xs.drop (i * stride)).take window))

/-- Modelled from the spec: the external 2D windowed reduction (`pool_2d`)
with `ignore_border = True`, `pad = (0, 0)` — window `(i, j)` covers the
`w1 × w2` block starting at row `i * s1`, column `j * s2`, flattened and
reduced by `f`. -/
def pool2d_compute (w1 w2 s1 s2 : Nat) (f : List ℚ → ℚ)
    (input : List (List ℚ)) : List (List ℚ) :=
  (List.range (numFullWindows input.length w1 s1)).map (fun i =>
    (List.range (numFullWindows (input.headD []).length w2 s2)).map (fun j =>
      f ((((input.drop (i * s1)).take w1).map
            (fun row => (row.drop (j * s2)).take w2)).flatten)))

/-- Modelled from the spec: the engine's `max` reduction of a window
(mode `'max'`); the default on an empty window is never used, since
`ignore_border = True` windows are nonempty. -/
def listMax : List ℚ → ℚ
  | [] => 0
  | x :: xs => xs.foldl max x

/-- Modelled from the spec: the engine's average reduction of a window
(mode `'average_exc_pad'` with zero padding: the plain mean). -/
def listAvg (xs : List ℚ) : ℚ :=
  xs.sum / (xs.length : ℚ)

/-- A value-carrying tensor: a shape and its row-major flat data. -/
structure Tensor where
  shape : List Nat
  data : List ℚ
  deriving Repr, DecidableEq

/-- `GlobalPoolLayer.get_output_shape_for`: `input_shape[:2]`. -/
def globalPoolLayer_get_output_shape_for (input_shape : List (Option Int)) :
    List (Option Int) :=
  input_shape.take 2

/-- `input.flatten(3)` of the tensor engine: keep the first two axes and
collapse all remaining axes into a single trailing axis; row-major data is
unchanged. -/
def flattenTo3 (t : Tensor) : Tensor :=
  ⟨t.shape.take 2 ++ [(t.shape.drop 2).prod], t.data⟩

/-- Reduction of a tensor along its last axis with `f` (the engine's
`pool_function(input, axis=ndim-1)`): the last shape entry is removed and
each contiguous block of that length in the row-major data is reduced. -/
def reduceLastAxis (f : List ℚ → ℚ) (t : Tensor) : Tensor :=
  let c := t.shape.getLastD 1
  let outShape := t.shape.dropLast
  ⟨outShape, (List.range outShape.prod).map
    (fun i => f ((t.data.drop (i * c)).take c))⟩

/-- `GlobalPoolLayer.get_output_for`: `self.pool_function(input.flatten(3),
axis=2)`. -/
def globalPoolLayer_get_output_for (f : List ℚ → ℚ) (t : Tensor) : Tensor :=
  reduceLastAxis f (flattenTo3 t)

/-! ## Arithmetic helper lemmas -/

/-- Floor division of `x + s - 1` by `s > 0` computes the ceiling of the
rational `x / s` — the bridge between Python's `(x + stride - 1) // stride`
idiom and the spec's `ceil(x / stride)`. -/
theorem fdiv_add_sub_one_eq_ceil (x s : Int) (hs : 0 < s) :
    (x + s - 1).fdiv s = ⌈(x : ℚ) / (s : ℚ)⌉ := by
  rw [Int.fdiv_eq_ediv _ (le_of_lt hs)]
  symm
  rw [Int.ceil_eq_iff]
  have h0 := Int.ediv_add_emod (x + s - 1) s
  have h1 := Int.emod_nonneg (x + s - 1) (ne_of_gt hs)
  have h2 := Int.emod_lt_of_pos (x + s - 1) hs
  have hsq : (0 : ℚ) < (s : ℚ) := by exact_mod_cast hs
  constructor
  · rw [lt_div_iff₀ hsq]
    have hz : ((x + s - 1) / s - 1) * s < x := by nlinarith
    calc ((((x + s - 1) / s : Int) : ℚ) - 1) * (s : ℚ)
        = (((x + s - 1) / s - 1 : Int) : ℚ) * ((s : Int) : ℚ) := by push_cast; ring
      _ < ((x : Int) : ℚ) := by exact_mod_cast hz
  · rw [div_le_iff₀ hsq]
    have hz : x ≤ (x + s - 1) / s * s := by nlinarith
    exact_mod_cast hz

/-! ## C1: the closed formulas computed by pool_output_length -/

/-- C1: for `pool_size ≥ 1`, `stride ≥ 1`, `pad ≥ 0`, `pool_output_length`
returns `ceil((input_length + 2*pad - pool_size + 1) / stride)` when
`ignore_border` is true; when `ignore_border` is false with `pad = 0` it
returns `ceil(input_length / stride)` if `stride ≥ pool_size` and
`max 0 (ceil((input_length - pool_size) / stride)) + 1` otherwise; in
particular `pool_output_length 10 3 2 0 true = 4` and
`pool_output_length 10 3 2 0 false = 5`. -/
theorem C1_pool_output_length_formulas (L w s p : Int)
    (hw : 1 ≤ w) (hs : 1 ≤ s) (hp : 0 ≤ p) :
    pool_output_length (some L) (some w) s p true
      = .ok (some ⌈((L + 2 * p - w + 1 : Int) : ℚ) / (s : ℚ)⌉) ∧
    (w ≤ s → pool_output_length (some L) (some w) s 0 false
      = .ok (some ⌈((L : Int) : ℚ) / (s : ℚ)⌉)) ∧
    (s < w → pool_output_length (some L) (some w) s 0 false
      = .ok (some (max 0 ⌈((L - w : Int) : ℚ) / (s : ℚ)⌉ + 1))) ∧
    pool_output_length (some 10) (some 3) 2 0 true = .ok (some 4) ∧
    pool_output_length (some 10) (some 3) 2 0 false = .ok (some 5) := by
  have hs0 : s ≠ 0 := by omega
  have hsp : (0 : Int) < s := by omega
  refine ⟨?_, ?_, ?_, rfl, rfl⟩
  · have hc := fdiv_add_sub_one_eq_ceil (L + 2 * p - w + 1) s hsp
    simp [pool_output_length, hs0, hc]
  · intro hws
    have hc := fdiv_add_sub_one_eq_ceil L s hsp
    simp [pool_output_length, hs0, hws, hc]
  · intro hsw
    have hns : ¬ s ≥ w := by omega
    have hc := fdiv_add_sub_one_eq_ceil (L - w) s hsp
    simp [pool_output_length, hs0, hns, hc]

/-- Concrete instance of `C1_pool_output_length_formulas` at the spec's own
example `input_length = 10`, `pool_size = 3`, `stride = 2`, `pad = 0`. -/
theorem C1_witness :
    pool_output_length (some 10) (some 3) 2 0 true = .ok (some 4) :=
  (C1_pool_output_length_formulas 10 3 2 0 (by decide) (by decide)
    (by decide)).2.2.2.1

/-! ## C2: the windowed-pooling constructors' rank validation -/

/-- C2 (failing evaluation): `Pool3DLayer` construction with a perfectly
valid rank-5 input shape raises a `TypeError` from
`super(Pool2DLayer, self).__init__` — `Pool3DLayer` is not a subclass of
`Pool2DLayer` — so no rank-5 construction can succeed; by contrast,
`Pool1DLayer` and `Pool2DLayer` behave exactly as the claim states. -/
theorem C2_pool3D_constructor_broken :
    pool3DLayer_init [some 2, some 3, some 4, some 4, some 4] (.scalar 2)
        none (.scalar 0) true "max"
      = .error (.typeError
          "super(type, obj): obj must be an instance or subtype of type") ∧
    pool1DLayer_init [some 2, some 3, some 7] (.scalar 2) none (.scalar 0)
        true "max"
      = .ok ⟨[some 2, some 3, some 7], [2], [2], [0], true, "max"⟩ ∧
    pool1DLayer_init [some 2, some 3] (.scalar 2) none (.scalar 0) true "max"
      = .error (.valueError ("Tried to create a 1D pooling layer with input "
          ++ "shape (2, 3). Expected 3 input dimensions (batchsize, "
          ++ "channels, 1 spatial dimensions).")) ∧
    pool2DLayer_init [some 2, some 3, some 4, some 4] (.scalar 2) none
        (.scalar 0) true "max"
      = .ok ⟨[some 2, some 3, some 4, some 4], [2, 2], [2, 2], [0, 0],
          true, "max"⟩ ∧
    pool2DLayer_init [some 2, some 3, some 4] (.scalar 2) none (.scalar 0)
        true "max"
      = .error (.valueError ("Tried to create a 2D pooling layer with input "
          ++ "shape (2, 3, 4). Expected 4 input dimensions (batchsize, "
          ++ "channels, 2 spatial dimensions).")) := by
  exact ⟨rfl, rfl, rfl, rfl, rfl⟩

/-! ## C3: the multiple-of check of FeaturePoolLayer / FeatureWTALayer -/

/-- C3 counterexample: with an unknown (`None`) size along the pooled axis,
construction of `FeaturePoolLayer` does not succeed — the modulo expression
`None % pool_size` itself raises a `TypeError`, so the check is not
"skipped". -/
theorem C3_counterexample :
    featurePoolLayer_init [some 64, none, some 5] 4 1
      = .error (.typeError
          "unsupported operand type(s) for %: NoneType and int") := rfl

/-- C3 amended: if the size along the target axis is a known integer that is
not a multiple of `pool_size`, construction of `FeaturePoolLayer` and of
`FeatureWTALayer` fails with a `ValueError` naming both values; if it is a
known multiple, construction succeeds; if it is unknown, construction fails
with a `TypeError` raised by the modulo on `None` (the check is not skipped
and construction does not succeed). -/
theorem C3_feature_layers_multiple_check (shape : List (Option Int))
    (ps : Int) (axis : Nat) (hps : 0 < ps) :
    (∀ v : Int, shape[axis]? = some (some v) → v.fmod ps ≠ 0 →
      featurePoolLayer_init shape ps axis = .error (.valueError
        ("Number of input feature maps (" ++ toString v
          ++ ") is not a multiple of the pool size (pool_size="
          ++ toString ps ++ ")")) ∧
      featureWTALayer_init shape ps axis = .error (.valueError
        ("Number of input feature maps (" ++ toString v
          ++ ") is not a multiple of the region size (pool_size="
          ++ toString ps ++ ")"))) ∧
    (∀ v : Int, shape[axis]? = some (some v) → v.fmod ps = 0 →
      featurePoolLayer_init shape ps axis = .ok ⟨shape, ps, axis⟩ ∧
      featureWTALayer_init shape ps axis = .ok ⟨shape, ps, axis⟩) ∧
    (shape[axis]? = some none →
      featurePoolLayer_init shape ps axis = .error (.typeError
        "unsupported operand type(s) for %: NoneType and int") ∧
      featureWTALayer_init shape ps axis = .error (.typeError
        "unsupported operand type(s) for %: NoneType and int")) := by
  have hps0 : ps ≠ 0 := by omega
  refine ⟨?_, ?_, ?_⟩
  · intro v hv hr
    constructor <;>
      simp [featurePoolLayer_init, featureWTALayer_init, pyIndex, pyMod,
        hv, hps0, hr, Bind.bind, Except.bind, throw, throwThe,
        MonadExceptOf.throw, pure, Except.pure]
  · intro v hv hr
    constructor <;>
      simp [featurePoolLayer_init, featureWTALayer_init, pyIndex, pyMod,
        hv, hps0, hr, Bind.bind, Except.bind, throw, throwThe,
        MonadExceptOf.throw, pure, Except.pure]
  · intro hv
    constructor <;>
      simp [featurePoolLayer_init, featureWTALayer_init, pyIndex, pyMod, hv,
        Bind.bind, Except.bind, throw, throwThe, MonadExceptOf.throw]

/-- Concrete instance of `C3_feature_layers_multiple_check`: size 5 along
axis 1 is not a multiple of `pool_size = 2`. -/
theorem C3_witness :
    featurePoolLayer_init [some 4, some 5] 2 1
      = .error (.valueError ("Number of input feature maps (5) is not a "
          ++ "multiple of the pool size (pool_size=2)")) :=
  ((C3_feature_layers_multiple_check [some 4, some 5] 2 1 (by decide)).1
    5 (by decide) (by decide)).1

/-! ## C4: where ignore_border = False with nonzero pad is rejected -/

/-- C4 counterexample: contrary to the claim that no check in this module
rejects `ignore_border = False` with nonzero padding, `pool_output_length`
itself asserts `pad == 0` in that branch, raising an `AssertionError`. -/
theorem C4_counterexample :
    pool_output_length (some 10) (some 3) 2 1 false
      = .error .assertionError := rfl

/-- C4 amended: the layer constructors accept `ignore_border = False`
together with any nonzero `pad` without complaint (no construction-time
check), but `pool_output_length` — and therefore shape inference — rejects
the combination with an `AssertionError` from its `assert pad == 0`;
only the value-computation path leaves the violation to the external
windowed-reduction primitive. -/
theorem C4_no_constructor_check_but_assert (shape : List (Option Int))
    (w p : Int) (ib : Bool) (m : String) (hlen : shape.length = 3) :
    pool1DLayer_init shape (.scalar w) none (.scalar p) ib m
      = .ok ⟨shape, [w], [w], [p], ib, m⟩ ∧
    (∀ (L pw s q : Int), q ≠ 0 →
      pool_output_length (some L) (some pw) s q false
        = .error .assertionError) := by
  constructor
  · simp [pool1DLayer_init, superCheck, isSubclassOf, as_tuple, hlen,
      Bind.bind, Except.bind, throw, throwThe, MonadExceptOf.throw, pure,
      Except.pure]
  · intro L pw s q hq
    simp [pool_output_length, hq]

/-- Concrete instance of `C4_no_constructor_check_but_assert`: a rank-3
input with `pad = 2`, `ignore_border = False` constructs fine, and
`pool_output_length` raises on the same combination. -/
theorem C4_witness :
    pool1DLayer_init [some 2, some 3, some 7] (.scalar 3) none (.scalar 2)
        false "max"
      = .ok ⟨[some 2, some 3, some 7], [3], [3], [2], false, "max"⟩ ∧
    pool_output_length (some 10) (some 3) 2 2 false
      = .error .assertionError :=
  ⟨(C4_no_constructor_check_but_assert [some 2, some 3, some 7] 3 2 false
      "max" (by decide)).1,
   (C4_no_constructor_check_but_assert [some 2, some 3, some 7] 3 2 false
      "max" (by decide)).2 10 3 2 2 (by decide)⟩

/-! ## C5: the winner-take-all computation -/

/-- The first-maximum index is inside the list. -/
theorem argmaxFirst_lt_length (l : List ℚ) (hl : l ≠ []) :
    argmaxFirst l < l.length := by
  induction l with
  | nil => simp at hl
  | cons x xs ih =>
    simp only [argmaxFirst]
    by_cases h : (x : WithBot ℚ) < xs.maximum
    · have hxs : xs ≠ [] := by
        intro he
        rw [he, List.maximum_nil] at h
        exact absurd h (not_lt_bot)
      simp only [if_pos h, List.length_cons]
      exact Nat.succ_lt_succ (ih hxs)
    · simp [if_neg h]

/-- Every element of the list is bounded by the element at the
first-maximum index. -/
theorem le_getD_argmaxFirst (l : List ℚ) :
    ∀ a ∈ l, a ≤ l.getD (argmaxFirst l) 0 := by
  induction l with
  | nil => intro a ha; simp at ha
  | cons x xs ih =>
    intro a ha
    simp only [argmaxFirst]
    by_cases h : (x : WithBot ℚ) < xs.maximum
    · obtain ⟨m, hm, hxm⟩ := WithBot.lt_iff_exists_coe.mp h
      simp only [if_pos h, List.getD_cons_succ]
      rcases List.mem_cons.mp ha with rfl | hax
      · have h1 : a < m := by exact_mod_cast hxm
        have h2 : m ≤ xs.getD (argmaxFirst xs) 0 :=
          ih m (List.maximum_mem hm)
        linarith
      · exact ih a hax
    · simp only [if_neg h, List.getD_cons_zero]
      rcases List.mem_cons.mp ha with rfl | hax
      · exact le_refl a
      · have h1 : (a : WithBot ℚ) ≤ xs.maximum := List.le_maximum_of_mem' hax
        have h2 : xs.maximum ≤ (x : WithBot ℚ) := not_lt.mp h
        exact_mod_cast le_trans h1 h2

/-- Elements strictly before the first-maximum index are strictly below
the maximum: the tie-break is toward the lowest index. -/
theorem getD_lt_of_lt_argmaxFirst (l : List ℚ) (j : Nat)
    (hj : j < argmaxFirst l) :
    l.getD j 0 < l.getD (argmaxFirst l) 0 := by
  induction l generalizing j with
  | nil => simp [argmaxFirst] at hj
  | cons x xs ih =>
    simp only [argmaxFirst] at hj ⊢
    by_cases h : (x : WithBot ℚ) < xs.maximum
    · obtain ⟨m, hm, hxm⟩ := WithBot.lt_iff_exists_coe.mp h
      simp only [if_pos h] at hj ⊢
      simp only [List.getD_cons_succ]
      cases j with
      | zero =>
        simp only [List.getD_cons_zero]
        have h1 : x < m := by exact_mod_cast hxm
        have h2 : m ≤ xs.getD (argmaxFirst xs) 0 :=
          le_getD_argmaxFirst xs m (List.maximum_mem hm)
        linarith
      | succ j =>
        simp only [List.getD_cons_succ]
        exact ih j (Nat.lt_of_succ_lt_succ hj)
    · simp [if_neg h] at hj

/-- A within-bounds position of group `g` sits inside a list of
`num_pools * pool_size` elements. -/
theorem group_index_lt (mG p g j : Nat) (hg : g < mG) (hj : j < p) :
    g * p + j < mG * p :=
  calc g * p + j < g * p + p := by omega
    _ = (g + 1) * p := by ring
    _ ≤ mG * p := Nat.mul_le_mul_right p hg

/-- Each group of the winner-take-all reshape has `pool_size` elements. -/
theorem wtaGroup_length (p : Nat) (xs : List ℚ) (mG g : Nat)
    (hlen : xs.length = mG * p) (hg : g < mG) :
    (wtaGroup p xs g).length = p := by
  have h2 : g * p + p ≤ mG * p := by
    calc g * p + p = (g + 1) * p := by ring
      _ ≤ mG * p := Nat.mul_le_mul_right p hg
  simp only [wtaGroup, List.length_take, List.length_drop, hlen]
  omega

/-- Element `j` of group `g` is element `g * pool_size + j` of the slice. -/
theorem wtaGroup_getD (p : Nat) (xs : List ℚ) (mG g j : Nat)
    (hlen : xs.length = mG * p) (hg : g < mG) (hj : j < p) :
    (wtaGroup p xs g).getD j 0 = xs.getD (g * p + j) 0 := by
  have hb : j < (wtaGroup p xs g).length := by
    rw [wtaGroup_length p xs mG g hlen hg]; exact hj
  have hb2 : g * p + j < xs.length := by
    rw [hlen]; exact group_index_lt mG p g j hg hj
  rw [List.getD_eq_getElem _ _ hb, List.getD_eq_getElem _ _ hb2]
  simp [wtaGroup]

/-- The output of the winner-take-all layer has the input's length. -/
theorem wta_length (p : Nat) (xs : List ℚ) :
    (featureWTALayer_get_output_for p xs).length = xs.length := by
  simp [featureWTALayer_get_output_for, wtaMask]

/-- Pointwise description of the winner-take-all output: the input value
multiplied by the argmax-comparison mask. -/
theorem wta_getD (p : Nat) (xs : List ℚ) (i : Nat) (hi : i < xs.length) :
    (featureWTALayer_get_output_for p xs).getD i 0
      = xs.getD i 0 *
        (if argmaxFirst (wtaGroup p xs (i / p)) = i % p then 1 else 0) := by
  have hlen : i < (featureWTALayer_get_output_for p xs).length := by
    rw [wta_length]; exact hi
  rw [List.getD_eq_getElem _ _ hlen]
  simp only [featureWTALayer_get_output_for, List.getElem_zipWith, wtaMask,
    List.getElem_map, List.getElem_range, List.getD_eq_getElem _ _ hi]

/-- Splitting a flat index `g * p + j` (with `j < p`) back into its group
and offset. -/
theorem group_div_mod (p g j : Nat) (hp : 0 < p) (hj : j < p) :
    (g * p + j) / p = g ∧ (g * p + j) % p = j := by
  have h1 : g * p + j = p * g + j := by ring
  constructor
  · rw [h1, Nat.mul_add_div hp, Nat.div_eq_of_lt hj, Nat.add_zero]
  · rw [h1, Nat.mul_add_mod, Nat.mod_eq_of_lt hj]

/-- C5 counterexample: on the group `[0, -1]` (size a multiple of the pool
size 2) the winner is the maximum `0` at index 0, so the output `[0, 0]`
has no nonzero element at all — not "exactly one nonzero element" per
group. -/
theorem C5_counterexample :
    featureWTALayer_get_output_for 2 [0, -1] = [0, 0] ∧
    (featureWTALayer_get_output_for 2 [0, -1]).countP
      (fun x : ℚ => decide (x ≠ 0)) = 0 := by
  have h : featureWTALayer_get_output_for 2 [0, -1] = [0, 0] := by
    norm_num [featureWTALayer_get_output_for, wtaMask, wtaGroup, argmaxFirst,
      List.range_succ, List.zipWith]
  rw [h]
  norm_num

/-- C5 amended: in each `pool_size` group of the winner-take-all output,
the position of the group's first maximum keeps the input's original value
and every other position is zero — hence at most one nonzero element per
group, and exactly one precisely when the group's maximum value is nonzero;
the winning index attains the group maximum, and ties are broken toward
the lowest index (all strictly earlier elements are strictly smaller). -/
theorem C5_featureWTA_winner_take_all (p mG g : Nat) (xs : List ℚ)
    (hp : 1 ≤ p) (hlen : xs.length = mG * p) (hg : g < mG) :
    argmaxFirst (wtaGroup p xs g) < p ∧
    (featureWTALayer_get_output_for p xs).getD
        (g * p + argmaxFirst (wtaGroup p xs g)) 0
      = xs.getD (g * p + argmaxFirst (wtaGroup p xs g)) 0 ∧
    (∀ j, j < p → j ≠ argmaxFirst (wtaGroup p xs g) →
      (featureWTALayer_get_output_for p xs).getD (g * p + j) 0 = 0) ∧
    (∀ j, j < p → (wtaGroup p xs g).getD j 0
      ≤ (wtaGroup p xs g).getD (argmaxFirst (wtaGroup p xs g)) 0) ∧
    (∀ j, j < argmaxFirst (wtaGroup p xs g) →
      (wtaGroup p xs g).getD j 0
        < (wtaGroup p xs g).getD (argmaxFirst (wtaGroup p xs g)) 0) := by
  have hp0 : 0 < p := hp
  have hgl : (wtaGroup p xs g).length = p := wtaGroup_length p xs mG g hlen hg
  have hne : wtaGroup p xs g ≠ [] := by
    intro he
    rw [he] at hgl
    simp at hgl
    omega
  have hargLt : argmaxFirst (wtaGroup p xs g) < p := by
    have := argmaxFirst_lt_length (wtaGroup p xs g) hne
    omega
  refine ⟨hargLt, ?_, ?_, ?_, ?_⟩
  · have hi : g * p + argmaxFirst (wtaGroup p xs g) < xs.length := by
      rw [hlen]; exact group_index_lt mG p g _ hg hargLt
    obtain ⟨hdiv, hmod⟩ := group_div_mod p g _ hp0 hargLt
    rw [wta_getD p xs _ hi, hdiv, hmod, if_pos rfl, mul_one]
  · intro j hj hjne
    have hi : g * p + j < xs.length := by
      rw [hlen]; exact group_index_lt mG p g j hg hj
    obtain ⟨hdiv, hmod⟩ := group_div_mod p g j hp0 hj
    rw [wta_getD p xs _ hi, hdiv, hmod,
      if_neg (fun hc => hjne hc.symm), mul_zero]
  · intro j hj
    have hmem : (wtaGroup p xs g).getD j 0 ∈ wtaGroup p xs g := by
      have hb : j < (wtaGroup p xs g).length := by rw [hgl]; exact hj
      rw [List.getD_eq_getElem _ _ hb]
      exact List.getElem_mem hb
    exact le_getD_argmaxFirst _ _ hmem
  · intro j hj
    exact getD_lt_of_lt_argmaxFirst _ j hj

/-- Concrete instance of `C5_featureWTA_winner_take_all` on the slice
`[1, 5]` with pool size 2: the winning index is inside the group. -/
theorem C5_witness : argmaxFirst (wtaGroup 2 [1, 5] 0) < 2 :=
  (C5_featureWTA_winner_take_all 2 1 0 [1, 5] (by decide) (by decide)
    (by decide)).1

/-! ## C6: the dilate-mode and identity behaviour of the Upscale layers -/

/-- Indexing a mapped range: entry `k` of `(List.range n).map f` is `f k`. -/
theorem getD_range_map {α : Type} (f : Nat → α) (d : α) (n k : Nat)
    (hk : k < n) : ((List.range n).map f).getD k d = f k := by
  have hlen : k < ((List.range n).map f).length := by simpa using hk
  rw [List.getD_eq_getElem _ _ hlen]
  simp

/-- C6: in dilate mode with some scale factor above 1, every Upscale layer
writes input element `(i, j, ...)` to position `(i*a, j*b, ...)` of the
spatial axes and zero everywhere else; with all scale factors equal to 1,
both modes return the input unchanged. -/
theorem C6_upscale_dilate_and_identity :
    (∀ (a : Nat) (xs : List ℚ), 1 < a →
      (upscale1DLayer_get_output_for a .dilate xs).length = xs.length * a ∧
      (∀ i, i < xs.length →
        (upscale1DLayer_get_output_for a .dilate xs).getD (i * a) 0
          = xs.getD i 0) ∧
      (∀ k, k < xs.length * a → ¬ a ∣ k →
        (upscale1DLayer_get_output_for a .dilate xs).getD k 0 = 0)) ∧
    (∀ (mode : UpscaleMode) (xs : List ℚ),
      upscale1DLayer_get_output_for 1 mode xs = xs) ∧
    (∀ (a b : Nat) (m : List (List ℚ)), 1 ≤ a → 1 ≤ b → (1 < a ∨ 1 < b) →
      (upscale2DLayer_get_output_for a b .dilate m).length = m.length * a ∧
      (∀ k, k < m.length * a →
        ((upscale2DLayer_get_output_for a b .dilate m).getD k []).length
          = (m.headD []).length * b) ∧
      (∀ i j, i < m.length → j < (m.headD []).length →
        ((upscale2DLayer_get_output_for a b .dilate m).getD (i * a) []).getD
            (j * b) 0
          = (m.getD i []).getD j 0) ∧
      (∀ k l, k < m.length * a → l < (m.headD []).length * b →
        (¬ a ∣ k ∨ ¬ b ∣ l) →
        ((upscale2DLayer_get_output_for a b .dilate m).getD k []).getD l 0
          = 0)) ∧
    (∀ (mode : UpscaleMode) (m : List (List ℚ)),
      upscale2DLayer_get_output_for 1 1 mode m = m) ∧
    (∀ (a b c : Nat) (m : List (List (List ℚ))),
      1 ≤ a → 1 ≤ b → 1 ≤ c → (1 < a ∨ 1 < b ∨ 1 < c) →
      (∀ i j k, i < m.length → j < (m.headD []).length →
        k < ((m.headD []).headD []).length →
        (((upscale3DLayer_get_output_for a b c .dilate m).getD (i * a)
            []).getD (j * b) []).getD (k * c) 0
          = ((m.getD i []).getD j []).getD k 0) ∧
      (∀ u v r, u < m.length * a → v < (m.headD []).length * b →
        r < ((m.headD []).headD []).length * c →
        (¬ a ∣ u ∨ ¬ b ∣ v ∨ ¬ c ∣ r) →
        (((upscale3DLayer_get_output_for a b c .dilate m).getD u []).getD v
            []).getD r 0 = 0)) ∧
    (∀ (mode : UpscaleMode) (m : List (List (List ℚ))),
      upscale3DLayer_get_output_for 1 1 1 mode m = m) := by
  refine ⟨?_, ?_, ?_, ?_, ?_, ?_⟩
  · intro a xs ha
    have ha0 : 0 < a := by omega
    refine ⟨by simp [upscale1DLayer_get_output_for, ha], ?_, ?_⟩
    · intro i hi
      have hlt : i * a < xs.length * a := (Nat.mul_lt_mul_right ha0).mpr hi
      simp only [upscale1DLayer_get_output_for, if_pos ha]
      rw [getD_range_map _ _ _ _ hlt]
      simp [Nat.mul_mod_left, Nat.mul_div_cancel _ ha0]
    · intro k hk hnd
      have hm : ¬ k % a = 0 := fun h => hnd (Nat.dvd_of_mod_eq_zero h)
      simp only [upscale1DLayer_get_output_for, if_pos ha]
      rw [getD_range_map _ _ _ _ hk]
      simp [hm]
  · intro mode xs
    cases mode <;> simp [upscale1DLayer_get_output_for]
  · intro a b m ha hb hab
    have hcond : 1 < b ∨ 1 < a := hab.symm
    have ha0 : 0 < a := by omega
    have hb0 : 0 < b := by omega
    refine ⟨by simp [upscale2DLayer_get_output_for, hcond], ?_, ?_, ?_⟩
    · intro k hk
      simp only [upscale2DLayer_get_output_for, if_pos hcond]
      rw [getD_range_map _ _ _ _ hk]
      simp
    · intro i j hi hj
      have hia : i * a < m.length * a := (Nat.mul_lt_mul_right ha0).mpr hi
      have hjb : j * b < (m.headD []).length * b := (Nat.mul_lt_mul_right hb0).mpr hj
      simp only [upscale2DLayer_get_output_for, if_pos hcond]
      rw [getD_range_map _ _ _ _ hia, getD_range_map _ _ _ _ hjb]
      simp [Nat.mul_mod_left, Nat.mul_div_cancel _ ha0,
        Nat.mul_div_cancel _ hb0]
    · intro k l hk hl hnd
      have hm : ¬ (k % a = 0 ∧ l % b = 0) := by
        rcases hnd with h | h
        · exact fun hc => h (Nat.dvd_of_mod_eq_zero hc.1)
        · exact fun hc => h (Nat.dvd_of_mod_eq_zero hc.2)
      simp only [upscale2DLayer_get_output_for, if_pos hcond]
      rw [getD_range_map _ _ _ _ hk, getD_range_map _ _ _ _ hl]
      simp only [if_neg hm]
  · intro mode m
    cases mode <;> simp [upscale2DLayer_get_output_for]
  · intro a b c m ha hb hc habc
    have hcond : 1 < c ∨ 1 < b ∨ 1 < a := by tauto
    have ha0 : 0 < a := by omega
    have hb0 : 0 < b := by omega
    have hc0 : 0 < c := by omega
    constructor
    · intro i j k hi hj hk
      have hia : i * a < m.length * a := (Nat.mul_lt_mul_right ha0).mpr hi
      have hjb : j * b < (m.headD []).length * b := (Nat.mul_lt_mul_right hb0).mpr hj
      have hkc : k * c < ((m.headD []).headD []).length * c :=
        (Nat.mul_lt_mul_right hc0).mpr hk
      simp only [upscale3DLayer_get_output_for, if_pos hcond]
      rw [getD_range_map _ _ _ _ hia, getD_range_map _ _ _ _ hjb,
        getD_range_map _ _ _ _ hkc]
      simp [Nat.mul_mod_left, Nat.mul_div_cancel _ ha0,
        Nat.mul_div_cancel _ hb0, Nat.mul_div_cancel _ hc0]
    · intro u v r hu hv hr hnd
      have hm : ¬ (u % a = 0 ∧ v % b = 0 ∧ r % c = 0) := by
        rcases hnd with h | h | h
        · exact fun hx => h (Nat.dvd_of_mod_eq_zero hx.1)
        · exact fun hx => h (Nat.dvd_of_mod_eq_zero hx.2.1)
        · exact fun hx => h (Nat.dvd_of_mod_eq_zero hx.2.2)
      simp only [upscale3DLayer_get_output_for, if_pos hcond]
      rw [getD_range_map _ _ _ _ hu, getD_range_map _ _ _ _ hv,
        getD_range_map _ _ _ _ hr]
      simp only [if_neg hm]
  · intro mode m
    cases mode <;> simp [upscale3DLayer_get_output_for]

/-- Concrete instance of `C6_upscale_dilate_and_identity`: dilating
`[4, 5]` by factor 3 places `5` at position `1 * 3` of the output. -/
theorem C6_witness :
    (upscale1DLayer_get_output_for 3 .dilate [4, 5]).getD (1 * 3) 0
      = ([(4 : ℚ), 5]).getD 1 0 :=
  ((C6_upscale_dilate_and_identity.1 3 [4, 5] (by decide)).2.1 1 (by decide))

/-! ## C9: GlobalPoolLayer shape inference and value computation -/

/-- C9: for any input shape `(N, C, d1, d2, ...)` of rank at least 3,
`GlobalPoolLayer` infers output shape exactly `(N, C)`, and its value
computation reduces, for each `(batch, channel)` pair, the block of all
trailing-axes elements — collapsed into one axis of length `d1 * d2 * ...`
— with the stored reduction function. -/
theorem C9_globalPool_shape_and_value :
    (∀ (N C : Option Int) (rest : List (Option Int)), rest ≠ [] →
      globalPoolLayer_get_output_shape_for (N :: C :: rest) = [N, C]) ∧
    (∀ (f : List ℚ → ℚ) (t : Tensor) (n c : Nat) (ds : List Nat),
      t.shape = n :: c :: ds →
      (globalPoolLayer_get_output_for f t).shape = [n, c] ∧
      (globalPoolLayer_get_output_for f t).data
        = (List.range (n * c)).map
            (fun i => f ((t.data.drop (i * ds.prod)).take ds.prod))) := by
  constructor
  · intro N C rest _
    simp [globalPoolLayer_get_output_shape_for]
  · intro f t n c ds hshape
    constructor
    · simp [globalPoolLayer_get_output_for, flattenTo3, reduceLastAxis,
        hshape]
    · simp [globalPoolLayer_get_output_for, flattenTo3, reduceLastAxis,
        hshape, Nat.mul_one]

/-- Concrete instance of `C9_globalPool_shape_and_value` on the shape
`(2, 3, 4)` and a tensor of shape `(1, 2, 2)`. -/
theorem C9_witness :
    globalPoolLayer_get_output_shape_for [some 2, some 3, some 4]
      = [some 2, some 3] ∧
    (globalPoolLayer_get_output_for listMax ⟨[1, 2, 2], [3, 9, 7, 5]⟩).shape
      = [1, 2] :=
  ⟨C9_globalPool_shape_and_value.1 (some 2) (some 3) [some 4] (by decide),
   (C9_globalPool_shape_and_value.2 listMax ⟨[1, 2, 2], [3, 9, 7, 5]⟩
      1 2 [2] rfl).1⟩

/-! ## C8: monotonicity of pool_output_length in the input length -/

/-- C8: with `ignore_border = true` and fixed `pool_size ≥ 1`,
`stride ≥ 1`, `pad ≥ 0`, the output length computed by
`pool_output_length` is monotonically non-decreasing in the input
length. -/
theorem C8_pool_output_length_monotone (w s p a b oa ob : Int)
    (hw : 1 ≤ w) (hs : 1 ≤ s) (hp : 0 ≤ p) (hab : a ≤ b)
    (ha : pool_output_length (some a) (some w) s p true = .ok (some oa))
    (hb : pool_output_length (some b) (some w) s p true = .ok (some ob)) :
    oa ≤ ob := by
  have hs0 : s ≠ 0 := by omega
  simp only [pool_output_length, if_true, hs0, if_neg hs0, ite_false,
    Except.ok.injEq, Option.some.injEq] at ha hb
  subst ha hb
  rw [Int.fdiv_eq_ediv _ (by omega), Int.fdiv_eq_ediv _ (by omega)]
  exact Int.ediv_le_ediv (by omega) (by omega)

/-- Concrete instance of `C8_pool_output_length_monotone`:
lengths 3 ≤ 5 with window 2, stride 2, pad 0 give outputs 1 ≤ 2. -/
theorem C8_witness : (1 : Int) ≤ 2 :=
  C8_pool_output_length_monotone 2 2 0 3 5 1 2 (by decide) (by decide)
    (by decide) (by decide) rfl rfl

/-! ## C10: no clamping at zero in the ignore_border branch -/

/-- C10: `pool_output_length` does not clamp its result at zero when
`ignore_border` is true: at `input_length = 1`, `pool_size = 3`,
`stride = 1`, `pad = 0` it returns the negative length `-1` rather than
`0` or an error. -/
theorem C10_negative_output_length :
    pool_output_length (some 1) (some 3) 1 0 true = .ok (some (-1)) ∧
    (-1 : Int) < 0 :=
  ⟨rfl, by decide⟩

/-! ## C7: repeat-mode upscaling followed by pooling is the identity -/

/-- `repeatOp` on the empty list. -/
theorem repeatOp_nil {α : Type} (k : Nat) : repeatOp ([] : List α) k = [] := rfl

/-- `repeatOp` on a cons: the head's replicas come first. -/
theorem repeatOp_cons {α : Type} (x : α) (xs : List α) (k : Nat) :
    repeatOp (x :: xs) k = List.replicate k x ++ repeatOp xs k := by
  simp [repeatOp]

/-- Repeating once changes nothing. -/
theorem repeatOp_one {α : Type} (xs : List α) : repeatOp xs 1 = xs := by
  induction xs with
  | nil => rfl
  | cons x xs ih =>
    rw [repeatOp_cons, ih, List.replicate_one, List.singleton_append]

/-- Repeating multiplies the length by the factor. -/
theorem length_repeatOp {α : Type} (xs : List α) (k : Nat) :
    (repeatOp xs k).length = xs.length * k := by
  induction xs with
  | nil => simp [repeatOp]
  | cons x xs ih =>
    rw [repeatOp_cons, List.length_append, List.length_replicate, ih,
      List.length_cons, Nat.succ_mul, Nat.add_comm]

/-- Dropping the first replica block of a `k`-fold repetition of a cons
leaves the repetition of the tail. -/
theorem drop_k_repeatOp_cons {α : Type} (x : α) (xs : List α) (k : Nat) :
    (repeatOp (x :: xs) k).drop k = repeatOp xs k := by
  rw [repeatOp_cons, List.drop_left' (List.length_replicate k x)]

/-- Dropping `i * k` elements of a `k`-fold repetition drops the first `i`
original elements. -/
theorem drop_repeatOp {α : Type} (k : Nat) (xs : List α) (i : Nat) :
    (repeatOp xs k).drop (i * k) = repeatOp (xs.drop i) k := by
  induction i generalizing xs with
  | zero => simp
  | succ i ih =>
    cases xs with
    | nil => simp [repeatOp]
    | cons x xs =>
      have h1 : (repeatOp (x :: xs) k).drop ((i + 1) * k)
          = ((repeatOp (x :: xs) k).drop k).drop (i * k) := by
        rw [List.drop_drop]
        congr 1
        ring
      rw [h1, drop_k_repeatOp_cons, ih, List.drop_succ_cons]

/-- The first `k` elements of a `k`-fold repetition of `x :: xs` are the
`k` replicas of `x`. -/
theorem take_repeatOp_cons {α : Type} (x : α) (xs : List α) (k : Nat) :
    (repeatOp (x :: xs) k).take k = List.replicate k x := by
  rw [repeatOp_cons, List.take_left' (List.length_replicate k x)]

/-- The head of a `k`-fold repetition of a cons, for `k ≥ 1`. -/
theorem headD_repeatOp {α : Type} (y : α) (ys : List α) (k : Nat)
    (hk : 1 ≤ k) (d : α) : (repeatOp (y :: ys) k).headD d = y := by
  cases k with
  | zero => omega
  | succ k => simp [repeatOp_cons, List.replicate_succ]

/-- An input of length `n * k` supports exactly `n` full windows of width
and stride `k`. -/
theorem numFullWindows_mul (n k : Nat) (hk : 1 ≤ k) :
    numFullWindows (n * k) k k = n := by
  cases n with
  | zero =>
    rw [Nat.zero_mul, numFullWindows, if_neg (by omega)]
  | succ n =>
    have hle : k ≤ (n + 1) * k := by
      calc k = 1 * k := (Nat.one_mul k).symm
        _ ≤ (n + 1) * k := Nat.mul_le_mul_right k (by omega)
    have hsub : (n + 1) * k - k = n * k := by
      rw [Nat.succ_mul, Nat.add_sub_cancel]
    rw [numFullWindows, if_pos hle, hsub, Nat.mul_div_cancel n hk]

/-- Pooling a `k`-fold repetition with window and stride `k` reduces each
original element's replica block. -/
theorem pool1d_repeatOp (k : Nat) (hk : 1 ≤ k) (f : List ℚ → ℚ)
    (xs : List ℚ) :
    pool1d_compute k k f (repeatOp xs k)
      = xs.map (fun x => f (List.replicate k x)) := by
  apply List.ext_getElem
  · simp [pool1d_compute, length_repeatOp, numFullWindows_mul _ _ hk]
  · intro i h1 h2
    have hi : i < xs.length := by simpa using h2
    simp only [pool1d_compute, List.getElem_map, List.getElem_range]
    rw [drop_repeatOp, List.drop_eq_getElem_cons hi, take_repeatOp_cons]

/-- Repeat-mode 1D upscaling is `repeatOp` for every scale factor `≥ 1`. -/
theorem up1_repeat_eq (k : Nat) (hk : 1 ≤ k) (xs : List ℚ) :
    upscale1DLayer_get_output_for k .repeat xs = repeatOp xs k := by
  by_cases h : 1 < k
  · simp [upscale1DLayer_get_output_for, h]
  · have hk1 : k = 1 := by omega
    subst hk1
    simp [upscale1DLayer_get_output_for, repeatOp_one]

/-- Repeat-mode 2D upscaling with equal factors is a row repetition of
per-row repetitions, for every scale factor `≥ 1`. -/
theorem up2_repeat_eq (k : Nat) (hk : 1 ≤ k) (m : List (List ℚ)) :
    upscale2DLayer_get_output_for k k .repeat m
      = repeatOp (m.map (fun r => repeatOp r k)) k := by
  by_cases h : 1 < k
  · simp [upscale2DLayer_get_output_for, h]
  · have hk1 : k = 1 := by omega
    subst hk1
    simp [upscale2DLayer_get_output_for, repeatOp_one]

/-- Pooling the doubly repeated matrix with window and stride `k` along
both axes reduces, at each original position, the `k * k` block of copies
of that position's value. -/
theorem pool2d_repeatOp (k : Nat) (hk : 1 ≤ k) (f : List ℚ → ℚ) (c : Nat)
    (m : List (List ℚ)) (hrect : ∀ row ∈ m, row.length = c) :
    pool2d_compute k k k k f (repeatOp (m.map (fun r => repeatOp r k)) k)
      = m.map (fun row => row.map (fun x => f (List.replicate (k * k) x))) := by
  cases m with
  | nil =>
    have h0 : numFullWindows 0 k k = 0 := by
      rw [numFullWindows, if_neg (by omega)]
    simp [pool2d_compute, repeatOp, h0]
  | cons r0 m' =>
    have hr0 : r0.length = c := hrect r0 (List.mem_cons_self r0 m')
    have hhead : ((repeatOp ((r0 :: m').map (fun r => repeatOp r k))
        k).headD []).length = c * k := by
      rw [List.map_cons, headD_repeatOp _ _ k hk, length_repeatOp, hr0]
    have hlenu : (repeatOp ((r0 :: m').map (fun r => repeatOp r k)) k).length
        = (r0 :: m').length * k := by
      rw [length_repeatOp, List.length_map]
    apply List.ext_getElem
    · simp only [pool2d_compute, List.length_map, List.length_range]
      rw [hlenu, numFullWindows_mul _ _ hk]
    · intro i hi1 hi2
      have hi : i < (r0 :: m').length := by
        simpa using hi2
      have hrowlen : (r0 :: m')[i].length = c :=
        hrect _ (List.getElem_mem hi)
      simp only [pool2d_compute, List.getElem_map, List.getElem_range]
      apply List.ext_getElem
      · simp only [List.length_map, List.length_range]
        rw [hhead, numFullWindows_mul _ _ hk, hrowlen]
      · intro j hj1 hj2
        rw [List.length_map, List.length_range, hhead,
          numFullWindows_mul _ _ hk] at hj1
        have hj : j < (r0 :: m')[i].length := by
          rw [hrowlen]
          exact hj1
        have himap : i < ((r0 :: m').map (fun r => repeatOp r k)).length := by
          simpa using hi
        simp only [List.getElem_map, List.getElem_range]
        rw [drop_repeatOp, List.drop_eq_getElem_cons himap,
          List.getElem_map, take_repeatOp_cons, List.map_replicate,
          drop_repeatOp, List.drop_eq_getElem_cons hj, take_repeatOp_cons,
          List.flatten_replicate_replicate]

/-- The maximum of a nonempty constant window is its value. -/
theorem foldl_max_replicate (m : Nat) (x : ℚ) :
    List.foldl max x (List.replicate m x) = x := by
  induction m with
  | zero => rfl
  | succ m ih => simp [List.replicate_succ, ih]

/-- `listMax` of a nonempty constant window is its value. -/
theorem listMax_replicate (k : Nat) (hk : 1 ≤ k) (x : ℚ) :
    listMax (List.replicate k x) = x := by
  cases k with
  | zero => omega
  | succ k => simp [List.replicate_succ, listMax, foldl_max_replicate]

/-- `listAvg` of a nonempty constant window is its value. -/
theorem listAvg_replicate (k : Nat) (hk : 1 ≤ k) (x : ℚ) :
    listAvg (List.replicate k x) = x := by
  have hk0 : (k : ℚ) ≠ 0 := Nat.cast_ne_zero.mpr (by omega)
  rw [listAvg, List.sum_replicate, List.length_replicate, nsmul_eq_mul]
  exact mul_div_cancel_left₀ x hk0

/-- C7: repeat-mode upscaling by any factor `k ≥ 1` followed by windowed
pooling with `window = stride = k`, `pad = 0`, `ignore_border = True` in
max or average mode recovers the original tensor exactly, both for the 1D
operator pair and for the 2D operator pair on rectangular inputs. -/
theorem C7_upscale_pool_roundtrip (k : Nat) (hk : 1 ≤ k) :
    (∀ xs : List ℚ,
      pool1d_compute k k listMax
        (upscale1DLayer_get_output_for k .repeat xs) = xs) ∧
    (∀ xs : List ℚ,
      pool1d_compute k k listAvg
        (upscale1DLayer_get_output_for k .repeat xs) = xs) ∧
    (∀ (c : Nat) (m : List (List ℚ)), (∀ row ∈ m, row.length = c) →
      pool2d_compute k k k k listMax
        (upscale2DLayer_get_output_for k k .repeat m) = m) ∧
    (∀ (c : Nat) (m : List (List ℚ)), (∀ row ∈ m, row.length = c) →
      pool2d_compute k k k k listAvg
        (upscale2DLayer_get_output_for k k .repeat m) = m) := by
  have hkk : 1 ≤ k * k := Nat.mul_le_mul hk hk
  have h1 : ∀ f : List ℚ → ℚ, (∀ x, f (List.replicate k x) = x) →
      ∀ xs : List ℚ, pool1d_compute k k f
        (upscale1DLayer_get_output_for k .repeat xs) = xs := by
    intro f hf xs
    rw [up1_repeat_eq k hk, pool1d_repeatOp k hk]
    simp [hf]
  have h2 : ∀ f : List ℚ → ℚ, (∀ x, f (List.replicate (k * k) x) = x) →
      ∀ (c : Nat) (m : List (List ℚ)), (∀ row ∈ m, row.length = c) →
      pool2d_compute k k k k f
        (upscale2DLayer_get_output_for k k .repeat m) = m := by
    intro f hf c m hrect
    rw [up2_repeat_eq k hk, pool2d_repeatOp k hk f c m hrect]
    simp [hf]
  exact ⟨h1 listMax (listMax_replicate k hk),
         h1 listAvg (listAvg_replicate k hk),
         h2 listMax (listMax_replicate (k * k) hkk),
         h2 listAvg (listAvg_replicate (k * k) hkk)⟩

/-- Concrete instance of `C7_upscale_pool_roundtrip`: repeating `[3, 7]`
twice and max-pooling with window and stride 2 restores `[3, 7]`. -/
theorem C7_witness :
    pool1d_compute 2 2 listMax
      (upscale1DLayer_get_output_for 2 .repeat [3, 7]) = [(3 : ℚ), 7] :=
  (C7_upscale_pool_roundtrip 2 (by decide)).1 [3, 7]

end LasagnePool
